import Mathlib

/-!
Verification of the adaptive heightmap / noise-displacement engine of the
PolyFEM Blender plugin (repository `ETSTribology/PolyFEMBlenderPlugin`).

The development shallowly embeds the relevant functions of
`polyfem/operators/heightmap.py`, `physics_export/operators/heightmap.py`
and `physics_export/operators/heightmap_operator.py`:

* rational-valued parts (subdivision planner, displacement applicator,
  precondition guards) are embedded over `ℚ`, exactly as the source
  computes them;
* real-valued parts (noise kernels, grid normalization, the sorter's
  normalized basis) are embedded over `ℝ`, modelling the floating point
  computation by exact real arithmetic.

Grids (`numpy` 2-D arrays) are lists of rows, so `numpy.flatten` is
`List.flatten` and `a[i, j]` is row `i`, entry `j`.
-/

namespace HeightmapCore

/-- A 3-component vector, the embedding of `mathutils.Vector` restricted to
the three coordinates the plugin uses. -/
structure Vec3 (α : Type) where
  x : α
  y : α
  z : α
deriving DecidableEq, Repr

instance {α : Type} [Inhabited α] : Inhabited (Vec3 α) := ⟨⟨default, default, default⟩⟩

/-- Componentwise vector addition (`Vector.__add__`). -/
def Vec3.add {α : Type} [Add α] (a b : Vec3 α) : Vec3 α :=
  ⟨a.x + b.x, a.y + b.y, a.z + b.z⟩

/-- Componentwise vector subtraction (`Vector.__sub__`). -/
def Vec3.sub {α : Type} [Sub α] (a b : Vec3 α) : Vec3 α :=
  ⟨a.x - b.x, a.y - b.y, a.z - b.z⟩

/-- Scalar multiple of a vector (`Vector.__mul__` with a scalar). -/
def Vec3.smul {α : Type} [Mul α] (s : α) (a : Vec3 α) : Vec3 α :=
  ⟨s * a.x, s * a.y, s * a.z⟩

/-- Dot product (`Vector.dot`). -/
def Vec3.dot {α : Type} [Mul α] [Add α] (a b : Vec3 α) : α :=
  a.x * b.x + a.y * b.y + a.z * b.z

/-- Cross product (`Vector.cross`). -/
def Vec3.cross {α : Type} [Mul α] [Sub α] (a b : Vec3 α) : Vec3 α :=
  ⟨a.y * b.z - a.z * b.y, a.z * b.x - a.x * b.z, a.x * b.y - a.y * b.x⟩

/-- Squared Euclidean length (`Vector.length_squared`); also used to embed
the test `Vector.length == 0`, which holds exactly when the squared length
is `0`. -/
def Vec3.lengthSq {α : Type} [Mul α] [Add α] (a : Vec3 α) : α :=
  a.x * a.x + a.y * a.y + a.z * a.z

/-! ## Adaptive subdivision planner

From `physics_export/operators/heightmap.py`:

* `determine_subdivisions(self, variability, settings, base_subdivisions=1)`
  computes `scale_factor = 8 if settings.noise_type == 'GABOR' else 5` and
  returns `base_subdivisions + int(scale_factor * variability)`;
* `execute` then runs `subdivisions = max(1, subdivisions)`.
-/

/-- Python `int(·)` applied to a (real-valued) number: truncation toward
zero. -/
def pyInt (q : ℚ) : ℤ := if 0 ≤ q then Int.floor q else Int.ceil q

/-- The kernel-derived scale factor of `determine_subdivisions`:
`8 if settings.noise_type == 'GABOR' else 5`. -/
def scale_factor_for (noise_type : String) : ℚ :=
  if noise_type = "GABOR" then 8 else 5

/-- Embedding of `determine_subdivisions` from
`physics_export/operators/heightmap.py` (lines 181-184). -/
def determine_subdivisions (noise_type : String) (variability : ℚ)
    (base_subdivisions : ℤ := 1) : ℤ :=
  base_subdivisions + pyInt (scale_factor_for noise_type * variability)

/-- The caller side of the planner, from `execute` in
`physics_export/operators/heightmap.py` (lines 61-64):
`subdivisions = self.determine_subdivisions(variability, settings)` followed
by `subdivisions = max(1, subdivisions)`. -/
def subdivisions_pipeline (noise_type : String) (variability : ℚ) : ℤ :=
  max 1 (determine_subdivisions noise_type variability 1)

/-- Embedding of the resolution clamp of `execute` in
`polyfem/operators/heightmap.py`: `heightmap_resolution = max(2,
settings.resolution)`, then cuts are limited to `20` (with a reported
warning) when the resolution exceeds `20`.  This clamp applies to the
configured resolution of the non-adaptive pipeline, not to the adaptive
planner's output. -/
def polyfem_grid_cuts (resolution : ℤ) : ℤ :=
  let r := max 2 resolution
  if r > 20 then 20 else r

/-- Modelled from the spec's words for the refinement comparison: the
planner the spec describes, `base_subdivisions + round(scale_factor ×
variability)`, with rounding instead of the source's `int(·)` truncation. -/
def determine_subdivisions_spec (noise_type : String) (variability : ℚ)
    (base_subdivisions : ℤ := 1) : ℤ :=
  base_subdivisions + round (scale_factor_for noise_type * variability)

/-! ## Displacement applicator

From `apply_heightmap_to_vertices` in `polyfem/operators/heightmap.py`
(lines 315-325): flatten the heightmap, raise
`"Mismatch between sorted vertices and heightmap size."` when the vertex
count differs from the flattened length, otherwise add
`normal * heightmap_flat[i]` to vertex `i`.  The embedding returns the
post-state of the vertex list together with the raised message, if any;
the length check precedes the mutation loop, so on error the post-state is
the input list.
-/

/-- Embedding of `apply_heightmap_to_vertices`
(`polyfem/operators/heightmap.py`, lines 315-325). -/
def apply_heightmap_to_vertices (verts : List (Vec3 ℚ))
    (heightmap : List (List ℚ)) (normal : Vec3 ℚ) :
    List (Vec3 ℚ) × Option String :=
  let heightmap_flat := heightmap.flatten
  if verts.length ≠ heightmap_flat.length then
    (verts, some "Mismatch between sorted vertices and heightmap size.")
  else
    (List.zipWith (fun v h => Vec3.add v (Vec3.smul h normal)) verts heightmap_flat,
     none)

/-- Embedding of the displacement part of `apply_heightmap_to_face`
(`physics_export/operators/heightmap.py`, lines 186-197), taking the
already-sorted vertex list: raise on a count mismatch, else vertex `idx`
gains `normal * heightmap[idx // size_y][idx % size_y]`. -/
def apply_heightmap_to_face (verts_sorted : List (Vec3 ℚ))
    (size_x size_y : ℕ) (heightmap : List (List ℚ)) (normal : Vec3 ℚ) :
    List (Vec3 ℚ) × Option String :=
  if verts_sorted.length ≠ size_x * size_y then
    (verts_sorted, some "Mismatch between sorted vertices and heightmap size.")
  else
    (List.ofFn (fun idx : Fin verts_sorted.length =>
       Vec3.add (verts_sorted.get idx)
         (Vec3.smul ((heightmap.getD ((idx : ℕ) / size_y) []).getD ((idx : ℕ) % size_y) 0)
           normal)),
     none)

/-! ## Precondition guards of `execute`

`polyfem/operators/heightmap.py` checks, in order and before any heightmap
generation or mesh mutation: no face selected, more than one face selected,
face not a quad, face invalid or zero-length normal, face not planar,
unknown noise type.  `physics_export/operators/heightmap.py` checks only
the two selection conditions and the noise type before generating and
subdividing.
-/

/-- A mesh face as the guards see it: its boundary vertices, its normal and
the `BMFace.is_valid` flag. -/
structure FaceQ where
  verts : List (Vec3 ℚ)
  normal : Vec3 ℚ
  isValid : Bool
deriving DecidableEq, Repr

/-- Placeholder face used only to give `List.getD` a default; every guarded
access is behind a nonemptiness check. -/
def default_face : FaceQ := ⟨[], ⟨0, 0, 0⟩, true⟩

/-- Sum of a list of vectors. -/
def vecSum {α : Type} [Add α] [Zero α] (vs : List (Vec3 α)) : Vec3 α :=
  vs.foldr Vec3.add ⟨0, 0, 0⟩

/-- Embedding of `BMFace.calc_center_median`: the mean of the boundary
vertices. -/
def calc_center_median {α : Type} [DivisionRing α] (vs : List (Vec3 α)) : Vec3 α :=
  Vec3.smul (1 / (vs.length : α)) (vecSum vs)

/-- Embedding of `is_face_planar` (`polyfem/operators/heightmap.py`): every
boundary vertex must satisfy `abs(normal.dot(vert - center)) <= tolerance`
with the default tolerance `1e-5`. -/
def is_face_planar (f : FaceQ) (tolerance : ℚ := 1 / 100000) : Bool :=
  f.verts.all (fun v =>
    decide (|Vec3.dot f.normal (Vec3.sub v (calc_center_median f.verts))| ≤ tolerance))

/-- Outcome of the precondition phase of `execute`: either the operation is
cancelled with a reported error message before any generation work, or
control proceeds to heightmap generation (and later mesh mutation). -/
inductive ExecResult where
  | cancelled (msg : String)
  | proceeded
deriving DecidableEq, Repr

/-- Whether the precondition phase cancelled the operation. -/
def ExecResult.isCancelled : ExecResult → Bool
  | .cancelled _ => true
  | .proceeded => false

/-- Embedding of the guard chain of `execute` in
`polyfem/operators/heightmap.py` (lines 36-64): selection count, quad
check, validity / zero-normal check, planarity check, noise-type check, in
source order, all before heightmap generation and subdivision. -/
def polyfem_execute_precheck (selected_faces : List FaceQ) (noise_known : Bool) :
    ExecResult :=
  if selected_faces.length = 0 then
    .cancelled "Please select a face before applying the heightmap."
  else if 1 < selected_faces.length then
    .cancelled "Please select only one face. The current selection has too many."
  else
    let face := selected_faces.getD 0 default_face
    if face.verts.length ≠ 4 then
      .cancelled "Selected face is not a quad. Please select a quad face."
    else if face.isValid = false ∨ Vec3.lengthSq face.normal = 0 then
      .cancelled "Selected face is not valid or has no normal."
    else if is_face_planar face = false then
      .cancelled "Selected face is not planar. Please select a planar quad face."
    else if noise_known = false then
      .cancelled "Invalid noise type."
    else
      .proceeded

/-- Embedding of the guard chain of `execute` in
`physics_export/operators/heightmap.py` (lines 29-45): only the two
selection-count checks and the noise-type check precede heightmap
generation; there is no quad, validity, normal or planarity check. -/
def physics_export_execute_precheck (selected_faces : List FaceQ)
    (noise_known : Bool) : ExecResult :=
  if selected_faces.length = 0 then
    .cancelled "Please select a face before applying the heightmap."
  else if 1 < selected_faces.length then
    .cancelled "Please select only one face. The current selection has too many."
  else if noise_known = false then
    .cancelled "Invalid noise type."
  else
    .proceeded

/-- A planar triangular face (not a quad), used to exhibit the missing quad
check of `physics_export/operators/heightmap.py`. -/
def tri_face : FaceQ := ⟨[⟨0, 0, 0⟩, ⟨1, 0, 0⟩, ⟨0, 1, 0⟩], ⟨0, 0, 1⟩, true⟩

/-! ## Helper lemmas -/

/-- The kernel-derived scale factor is nonnegative. -/
lemma scale_factor_for_nonneg (noise_type : String) : 0 ≤ scale_factor_for noise_type := by
  unfold scale_factor_for
  split <;> norm_num

/-- On nonnegative arguments, Python truncation `int(·)` is the floor. -/
lemma pyInt_of_nonneg {q : ℚ} (h : 0 ≤ q) : pyInt q = Int.floor q := by
  simp [pyInt, h]

/-- A grid whose rows all have length `size_y` flattens to a list of length
`(number of rows) * size_y`. -/
lemma flatten_length_grid (g : List (List ℚ)) (size_y : ℕ)
    (hrow : ∀ r ∈ g, r.length = size_y) :
    g.flatten.length = g.length * size_y := by
  rw [List.length_flatten]
  have hmap : g.map List.length = List.replicate g.length size_y := by
    rw [List.eq_replicate_iff]
    constructor
    · simp
    · intro b hb
      obtain ⟨r, hr, hrb⟩ := List.mem_map.mp hb
      exact hrb ▸ hrow r hr
  rw [hmap, List.sum_replicate, smul_eq_mul]

/-- Indexing the flattening of a uniform grid: entry `k` of the flattened
list is entry `k % size_y` of row `k / size_y`. -/
lemma flatten_getD_grid (g : List (List ℚ)) (size_y k : ℕ)
    (hrow : ∀ r ∈ g, r.length = size_y) (hk : k < g.length * size_y) :
    g.flatten.getD k 0 = (g.getD (k / size_y) []).getD (k % size_y) 0 := by
  induction g generalizing k with
  | nil => simp at hk
  | cons r t ih =>
    have hr : r.length = size_y := hrow r (List.mem_cons_self r t)
    have hsy : 0 < size_y := by
      rcases Nat.eq_zero_or_pos size_y with h0 | h0
      · subst h0; simp at hk
      · exact h0
    rw [List.flatten_cons]
    by_cases hks : k < size_y
    · rw [List.getD_append _ _ _ _ (by omega), Nat.div_eq_of_lt hks,
        Nat.mod_eq_of_lt hks, List.getD_cons_zero]
    · have hle : size_y ≤ k := Nat.le_of_not_lt hks
      obtain ⟨k', rfl⟩ : ∃ k', k = size_y + k' := ⟨k - size_y, by omega⟩
      rw [List.getD_append_right _ _ _ _ (by omega)]
      have hk' : k' < t.length * size_y := by
        simp only [List.length_cons, Nat.succ_mul] at hk
        omega
      have hrec := ih k' (fun r hr => hrow r (List.mem_cons_of_mem _ hr)) hk'
      rw [hr, Nat.add_sub_cancel_left, hrec, Nat.add_div_left k' hsy,
        Nat.add_mod_left, List.getD_cons_succ]

/-! ## Claim C3: adaptive subdivision planner -/

/-- Claim C3 (corrected): for nonnegative heightmap variability `v` the
planner computes `base_subdivisions(= 1) + int(scale_factor * v)` where
`int` truncates (equals the floor on nonnegative input, not rounding),
`scale_factor` is `8` for the Gabor kernel and `5` for every other kernel,
and the caller lower-clamps with `max(1, ·)`, so the result is always at
least `1`; no upper bound is applied to the adaptive result, and the
20-cut clamp of the repository exists only in the polyfem resolution-based
pipeline, where it bounds the configured resolution. -/
theorem claim_C3_planner_formula (noise_type : String) (v : ℚ) (hv : 0 ≤ v) :
    subdivisions_pipeline noise_type v = 1 + Int.floor (scale_factor_for noise_type * v)
    ∧ 1 ≤ subdivisions_pipeline noise_type v
    ∧ scale_factor_for "GABOR" = 8
    ∧ (noise_type ≠ "GABOR" → scale_factor_for noise_type = 5)
    ∧ (∀ r : ℤ, polyfem_grid_cuts r ≤ 20) := by
  have hprod : 0 ≤ scale_factor_for noise_type * v :=
    mul_nonneg (scale_factor_for_nonneg noise_type) hv
  have hfloor : 0 ≤ Int.floor (scale_factor_for noise_type * v) :=
    Int.floor_nonneg.mpr hprod
  have hval : subdivisions_pipeline noise_type v
      = 1 + Int.floor (scale_factor_for noise_type * v) := by
    unfold subdivisions_pipeline determine_subdivisions
    rw [pyInt_of_nonneg hprod]
    exact max_eq_right (by omega)
  refine ⟨hval, by rw [hval]; omega, by simp [scale_factor_for], ?_, ?_⟩
  · intro h
    simp [scale_factor_for, h]
  · intro r
    by_cases h : 2 ⊔ r > 20
    · simp [polyfem_grid_cuts, h]
    · simp only [polyfem_grid_cuts, if_neg h]
      exact le_of_not_lt h

/-- Witness for C3: at variability `7/10` with a non-Gabor kernel, the
pipeline yields `1 + floor(5 * 7/10) = 4`. -/
theorem claim_C3_planner_formula_witness :
    (0 : ℚ) ≤ 7 / 10 ∧ subdivisions_pipeline "SINE" (7 / 10) = 4 := by
  refine ⟨by norm_num, ?_⟩
  have h := (claim_C3_planner_formula "SINE" (7 / 10) (by norm_num)).1
  rw [h]
  simp [scale_factor_for]
  norm_num

/-- Counterexample for C3 as stated: the planner truncates rather than
rounds (at variability `7/10` the code yields `4` while
`base + round(5 * 0.7) = 5`), and the adaptive result is not clamped to an
upper bound near `20` (at variability `10` the pipeline yields `51`). -/
theorem claim_C3_counterexample :
    determine_subdivisions "SINE" (7 / 10) 1 ≠ determine_subdivisions_spec "SINE" (7 / 10) 1
    ∧ 20 < subdivisions_pipeline "SINE" 10 := by
  constructor
  · simp [determine_subdivisions, determine_subdivisions_spec, pyInt, scale_factor_for]
    norm_num [round_eq]
  · simp [subdivisions_pipeline, determine_subdivisions, pyInt, scale_factor_for]
    norm_num

/-! ## Claim C4: subdivision monotonicity -/

/-- Claim C4 (confirmed): for the same kernel-derived scale factor and base
subdivisions, a larger variability never yields a smaller subdivision
count. -/
theorem claim_C4_subdivision_monotone (noise_type : String) (base : ℤ)
    (v1 v2 : ℚ) (h0 : 0 ≤ v1) (h12 : v1 ≤ v2) :
    determine_subdivisions noise_type v1 base ≤ determine_subdivisions noise_type v2 base := by
  have hs := scale_factor_for_nonneg noise_type
  have h1 : 0 ≤ scale_factor_for noise_type * v1 := mul_nonneg hs h0
  have h2 : scale_factor_for noise_type * v1 ≤ scale_factor_for noise_type * v2 :=
    mul_le_mul_of_nonneg_left h12 hs
  unfold determine_subdivisions
  rw [pyInt_of_nonneg h1, pyInt_of_nonneg (le_trans h1 h2)]
  exact add_le_add_left (Int.floor_le_floor h2) base

/-- Witness for C4 at variabilities `0 ≤ 1` with the sine kernel. -/
theorem claim_C4_subdivision_monotone_witness :
    (0 : ℚ) ≤ 0 ∧ (0 : ℚ) ≤ 1
    ∧ determine_subdivisions "SINE" 0 1 ≤ determine_subdivisions "SINE" 1 1 :=
  ⟨le_refl 0, by norm_num,
    claim_C4_subdivision_monotone "SINE" 1 0 1 (le_refl 0) (by norm_num)⟩

/-! ## Claim C5: displacement correctness -/

/-- Claim C5 (confirmed): for a sorted vertex list whose length equals
`size_x * size_y`, displacement succeeds and moves vertex `k` (row
`k / size_y`, column `k % size_y`) by exactly `heightmap[i, j] * normal`
added to its position, changing nothing else. -/
theorem claim_C5_displacement (verts : List (Vec3 ℚ)) (heightmap : List (List ℚ))
    (normal : Vec3 ℚ) (size_x size_y : ℕ)
    (hx : heightmap.length = size_x)
    (hrow : ∀ r ∈ heightmap, r.length = size_y)
    (hv : verts.length = size_x * size_y) :
    (apply_heightmap_to_vertices verts heightmap normal).2 = none
    ∧ (apply_heightmap_to_vertices verts heightmap normal).1.length = verts.length
    ∧ (∀ k, k < verts.length →
        (apply_heightmap_to_vertices verts heightmap normal).1.getD k default
          = Vec3.add (verts.getD k default)
              (Vec3.smul ((heightmap.getD (k / size_y) []).getD (k % size_y) 0) normal))
    ∧ (apply_heightmap_to_face verts size_x size_y heightmap normal).2 = none
    ∧ (∀ k, k < verts.length →
        (apply_heightmap_to_face verts size_x size_y heightmap normal).1.getD k default
          = Vec3.add (verts.getD k default)
              (Vec3.smul ((heightmap.getD (k / size_y) []).getD (k % size_y) 0) normal)) := by
  have hflat : heightmap.flatten.length = size_x * size_y := by
    rw [flatten_length_grid heightmap size_y hrow, hx]
  have heq : verts.length = heightmap.flatten.length := by rw [hv, hflat]
  have hcond : ¬(verts.length ≠ heightmap.flatten.length) := by
    rw [heq]
    simp
  have hcond2 : ¬(verts.length ≠ size_x * size_y) := by
    rw [hv]
    simp
  refine ⟨?_, ?_, ?_, ?_, ?_⟩
  · simp only [apply_heightmap_to_vertices, if_neg hcond]
  · simp only [apply_heightmap_to_vertices, if_neg hcond]
    rw [List.length_zipWith, ← heq, min_self]
  · intro k hk
    simp only [apply_heightmap_to_vertices, if_neg hcond]
    have hkz : k < (List.zipWith (fun v h => Vec3.add v (Vec3.smul h normal))
        verts heightmap.flatten).length := by
      rw [List.length_zipWith, ← heq, min_self]
      exact hk
    rw [List.getD_eq_getElem _ _ hkz, List.getElem_zipWith,
      List.getD_eq_getElem verts default hk]
    have hkf : k < heightmap.flatten.length := by rw [← heq]; exact hk
    have hgrid : k < heightmap.length * size_y := by
      rw [hx]
      rw [hv] at hk
      exact hk
    rw [← List.getD_eq_getElem heightmap.flatten 0 hkf,
      flatten_getD_grid heightmap size_y k hrow hgrid]
  · simp only [apply_heightmap_to_face, if_neg hcond2]
  · intro k hk
    simp only [apply_heightmap_to_face, if_neg hcond2]
    have hkf : k < (List.ofFn (fun idx : Fin verts.length =>
        Vec3.add (verts.get idx)
          (Vec3.smul ((heightmap.getD ((idx : ℕ) / size_y) []).getD ((idx : ℕ) % size_y) 0)
            normal))).length := by
      rw [List.length_ofFn]
      exact hk
    rw [List.getD_eq_getElem _ _ hkf, List.getElem_ofFn,
      List.getD_eq_getElem verts default hk]
    rfl

/-- Witness for C5, the spec's scenario: a flat 5x5 vertex grid, normal
`(0,0,1)` and a heightmap of all `2.0`; vertex 7 (and by the theorem every
vertex) gains exactly `2` in `z` with `x` and `y` unchanged. -/
theorem claim_C5_displacement_witness :
    (apply_heightmap_to_vertices (List.replicate 25 ⟨0, 0, 0⟩)
        (List.replicate 5 (List.replicate 5 2)) ⟨0, 0, 1⟩).2 = none
    ∧ (apply_heightmap_to_vertices (List.replicate 25 ⟨0, 0, 0⟩)
        (List.replicate 5 (List.replicate 5 2)) ⟨0, 0, 1⟩).1.getD 7 default
      = ⟨0, 0, 2⟩ := by
  obtain ⟨h1, _, hidx, _, _⟩ := claim_C5_displacement (List.replicate 25 ⟨0, 0, 0⟩)
    (List.replicate 5 (List.replicate 5 2)) ⟨0, 0, 1⟩ 5 5 (by simp)
    (by
      intro r hr
      rw [List.eq_of_mem_replicate hr]
      simp)
    (by simp)
  refine ⟨h1, ?_⟩
  have h7 := hidx 7 (by simp)
  rw [h7]
  norm_num [Vec3.add, Vec3.smul]

/-! ## Claim C6: displacement mismatch atomicity -/

/-- Claim C6 (confirmed): when the vertex count differs from
`size_x * size_y`, both displacement implementations raise the mismatch
error before touching any vertex, so the vertex positions are unchanged. -/
theorem claim_C6_mismatch_atomic (verts : List (Vec3 ℚ)) (heightmap : List (List ℚ))
    (normal : Vec3 ℚ) (size_x size_y : ℕ)
    (hx : heightmap.length = size_x)
    (hrow : ∀ r ∈ heightmap, r.length = size_y)
    (hne : verts.length ≠ size_x * size_y) :
    apply_heightmap_to_vertices verts heightmap normal
      = (verts, some "Mismatch between sorted vertices and heightmap size.")
    ∧ apply_heightmap_to_face verts size_x size_y heightmap normal
      = (verts, some "Mismatch between sorted vertices and heightmap size.") := by
  have hflat : heightmap.flatten.length = size_x * size_y := by
    rw [flatten_length_grid heightmap size_y hrow, hx]
  constructor
  · simp only [apply_heightmap_to_vertices]
    rw [if_pos (by rw [hflat]; exact hne)]
  · simp only [apply_heightmap_to_face]
    rw [if_pos hne]

/-- Witness for C6, the spec's scenario: 24 vertices against a 5x5
heightmap of all `2.0` raise the consistency error and leave every vertex
where it was. -/
theorem claim_C6_mismatch_atomic_witness :
    apply_heightmap_to_vertices (List.replicate 24 ⟨0, 0, 0⟩)
        (List.replicate 5 (List.replicate 5 2)) ⟨0, 0, 1⟩
      = (List.replicate 24 ⟨0, 0, 0⟩,
         some "Mismatch between sorted vertices and heightmap size.") :=
  (claim_C6_mismatch_atomic (List.replicate 24 ⟨0, 0, 0⟩)
    (List.replicate 5 (List.replicate 5 2)) ⟨0, 0, 1⟩ 5 5 (by simp)
    (by
      intro r hr
      rw [List.eq_of_mem_replicate hr]
      simp)
    (by simp)).1

/-! ## Claim C8: precondition errors -/

/-- If the polyfem guard chain proceeds to generation, every precondition
held: exactly one selected face, a quad, valid with a nonzero normal,
planar, and a known noise type. -/
lemma polyfem_precheck_proceeded (faces : List FaceQ) (nk : Bool)
    (h : polyfem_execute_precheck faces nk = .proceeded) :
    faces.length = 1
    ∧ (faces.getD 0 default_face).verts.length = 4
    ∧ (faces.getD 0 default_face).isValid = true
    ∧ ¬ Vec3.lengthSq (faces.getD 0 default_face).normal = 0
    ∧ is_face_planar (faces.getD 0 default_face) = true
    ∧ nk = true := by
  by_cases c0 : faces.length = 0
  · rw [polyfem_execute_precheck, if_pos c0] at h
    exact absurd h (by simp)
  by_cases c1 : 1 < faces.length
  · rw [polyfem_execute_precheck, if_neg c0, if_pos c1] at h
    exact absurd h (by simp)
  rw [polyfem_execute_precheck, if_neg c0, if_neg c1] at h
  simp only [] at h
  by_cases c2 : (faces.getD 0 default_face).verts.length ≠ 4
  · rw [if_pos c2] at h
    exact absurd h (by simp)
  by_cases c3 : (faces.getD 0 default_face).isValid = false
      ∨ Vec3.lengthSq (faces.getD 0 default_face).normal = 0
  · rw [if_neg c2, if_pos c3] at h
    exact absurd h (by simp)
  by_cases c4 : is_face_planar (faces.getD 0 default_face) = false
  · rw [if_neg c2, if_neg c3, if_pos c4] at h
    exact absurd h (by simp)
  by_cases c5 : nk = false
  · rw [if_neg c2, if_neg c3, if_neg c4, if_pos c5] at h
    exact absurd h (by simp)
  push_neg at c2 c3
  refine ⟨by omega, c2, by simpa using c3.1, c3.2, by simpa using c4, by simpa using c5⟩

/-- If the physics_export guard chain proceeds, exactly one face was
selected and the noise type was known; no other precondition was checked. -/
lemma physics_export_precheck_proceeded (faces : List FaceQ) (nk : Bool)
    (h : physics_export_execute_precheck faces nk = .proceeded) :
    faces.length = 1 ∧ nk = true := by
  by_cases c0 : faces.length = 0
  · rw [physics_export_execute_precheck, if_pos c0] at h
    exact absurd h (by simp)
  by_cases c1 : 1 < faces.length
  · rw [physics_export_execute_precheck, if_neg c0, if_pos c1] at h
    exact absurd h (by simp)
  by_cases c2 : nk = false
  · rw [physics_export_execute_precheck, if_neg c0, if_neg c1, if_pos c2] at h
    exact absurd h (by simp)
  exact ⟨by omega, by simpa using c2⟩

/-- Claim C8 (corrected): in the polyfem implementation every precondition
error (no face selected, several faces selected, non-quad face, invalid
face or zero-length normal, non-planar face) is caught by the guard chain
before any generation work and cancels the operation; the registered
physics_export implementation checks only the selection-count
preconditions before generating, so the face-shape conditions pass through
its guard chain (see the counterexample). -/
theorem claim_C8_precondition_errors (faces : List FaceQ) (nk : Bool)
    (h : faces.length = 0 ∨ 1 < faces.length
      ∨ (faces.length = 1 ∧
          ((faces.getD 0 default_face).verts.length ≠ 4
          ∨ (faces.getD 0 default_face).isValid = false
          ∨ Vec3.lengthSq (faces.getD 0 default_face).normal = 0
          ∨ is_face_planar (faces.getD 0 default_face) = false))) :
    (polyfem_execute_precheck faces nk).isCancelled = true
    ∧ ((faces.length = 0 ∨ 1 < faces.length) →
        (physics_export_execute_precheck faces nk).isCancelled = true) := by
  constructor
  · cases hres : polyfem_execute_precheck faces nk with
    | cancelled msg => rfl
    | proceeded =>
      obtain ⟨h1, h2, h3, h4, h5, _⟩ := polyfem_precheck_proceeded faces nk hres
      rcases h with h0 | h0 | ⟨_, hf⟩
      · omega
      · omega
      · rcases hf with hf | hf | hf | hf
        · exact absurd h2 hf
        · rw [h3] at hf
          simp at hf
        · exact absurd hf h4
        · rw [h5] at hf
          simp at hf
  · intro hsel
    cases hres : physics_export_execute_precheck faces nk with
    | cancelled msg => rfl
    | proceeded =>
      obtain ⟨h1, _⟩ := physics_export_precheck_proceeded faces nk hres
      rcases hsel with h0 | h0 <;> omega

/-- Witness for C8: with no face selected both guard chains cancel, and
with a single selected triangle the polyfem guard chain cancels. -/
theorem claim_C8_precondition_errors_witness :
    (polyfem_execute_precheck [tri_face] true).isCancelled = true
    ∧ (physics_export_execute_precheck [] true).isCancelled = true :=
  ⟨(claim_C8_precondition_errors [tri_face] true
      (Or.inr (Or.inr ⟨rfl, Or.inl (by simp [tri_face])⟩))).1,
   (claim_C8_precondition_errors [] true (Or.inl rfl)).2 (Or.inl rfl)⟩

/-- Counterexample for C8 as stated: a single selected planar triangle is
not a quadrilateral, yet the registered physics_export implementation's
guard chain proceeds to heightmap generation (and subdivision) instead of
aborting; the polyfem guard chain rejects the same input. -/
theorem claim_C8_counterexample :
    physics_export_execute_precheck [tri_face] true = ExecResult.proceeded
    ∧ polyfem_execute_precheck [tri_face] true
      = ExecResult.cancelled "Selected face is not a quad. Please select a quad face." := by
  constructor
  · rfl
  · rfl

/-! ## Noise kernels (real-valued)

Embedded over `ℝ`, modelling the floating-point computation by exact real
arithmetic.  The FBM and Perlin kernels delegate to Blender's
`mathutils.noise` library (an external collaborator) and are not needed by
any claim, so they are not embedded.
-/

/-- Embedding of `sine_wave` (`polyfem/operators/heightmap.py`, lines
190-192): `np.sin(10.0 * x)`, ignoring the second coordinate. -/
noncomputable def sine_wave (x : ℝ) (_v : ℝ) : ℝ := Real.sin (10.0 * x)

/-- Embedding of `gabor_noise` from `polyfem/operators/heightmap.py`
(lines 198-206): rotate `(x, y)` with `x_rot = x cos θ + y sin θ`,
`y_rot = -x sin θ + y cos θ`, and return
`cos(2 π power_spectrum x_rot) * exp(-0.5 y_rot² / bandwidth²)`.
The third coordinate of the position is unused by this variant. -/
noncomputable def gabor_noise (x y orientation bandwidth power_spectrum : ℝ) : ℝ :=
  let theta := orientation
  let x_rot := x * Real.cos theta + y * Real.sin theta
  let y_rot := -x * Real.sin theta + y * Real.cos theta
  Real.cos (2 * Real.pi * power_spectrum * x_rot) *
    Real.exp (-0.5 * y_rot ^ 2 / bandwidth ^ 2)

/-- Embedding of `gabor_noise` from `physics_export/operators/heightmap.py`
(lines 149-154): `np.cos(2 np.pi power_spectrum x cos(orientation) +
y sin(orientation)) * np.exp(-0.5 (length_squared / bandwidth²))` where
`length_squared = x² + y² + z²`.  Note that only the `x cos(orientation)`
term is multiplied by `2 π power_spectrum`, and the Gaussian envelope uses
the full squared length of the position, not a rotated coordinate. -/
noncomputable def pe_gabor_noise (x y z orientation bandwidth power_spectrum : ℝ) : ℝ :=
  Real.cos (2 * Real.pi * power_spectrum * x * Real.cos orientation
      + y * Real.sin orientation) *
    Real.exp (-0.5 * ((x ^ 2 + y ^ 2 + z ^ 2) / bandwidth ^ 2))

/-- Modelled from the spec's words for the refinement comparison: rotate
`(u, v)` into `(u', v')` by `orientation` and output
`cos(2 π power_spectrum u') * exp(-0.5 (v' / bandwidth)²)`. -/
noncomputable def gabor_formula_spec (u v orientation bandwidth power_spectrum : ℝ) : ℝ :=
  Real.cos (2 * Real.pi * power_spectrum *
      (u * Real.cos orientation + v * Real.sin orientation)) *
    Real.exp (-0.5 * ((-u * Real.sin orientation + v * Real.cos orientation)
        / bandwidth) ^ 2)

/-! ## Claim C2: the Gabor kernel -/

/-- Claim C2 (corrected): the polyfem implementation's Gabor kernel agrees
with the spec's formula `cos(2 π power_spectrum u') * exp(-0.5 (v' /
bandwidth)²)` at every input and parameter choice; the registered
physics_export implementation computes a different function (see the
counterexample). -/
theorem claim_C2_gabor_kernel (u v orientation bandwidth power_spectrum : ℝ) :
    gabor_noise u v orientation bandwidth power_spectrum
      = gabor_formula_spec u v orientation bandwidth power_spectrum := by
  simp only [gabor_noise, gabor_formula_spec]
  congr 1
  congr 1
  rw [div_pow]
  ring

/-- Counterexample for C2 as stated: at `(u, v) = (1, 0)` with orientation
`0`, bandwidth `1` and power spectrum `1`, the spec formula gives
`cos(2π) * exp(0) = 1` while the physics_export kernel gives
`cos(2π) * exp(-1/2) = exp(-1/2) ≠ 1`. -/
theorem claim_C2_counterexample :
    pe_gabor_noise 1 0 0 0 1 1 ≠ gabor_formula_spec 1 0 0 1 1 := by
  have hpe : pe_gabor_noise 1 0 0 0 1 1 = Real.exp (-(1 / 2)) := by
    unfold pe_gabor_noise
    rw [Real.cos_zero, Real.sin_zero]
    norm_num
  have hspec : gabor_formula_spec 1 0 0 1 1 = 1 := by
    unfold gabor_formula_spec
    rw [Real.cos_zero, Real.sin_zero]
    norm_num
  rw [hpe, hspec]
  intro h
  rw [Real.exp_eq_one_iff] at h
  norm_num at h

/-! ## Claim C10: grid-order sorting is a permutation -/

/-- A mesh face as `sort_vertices_grid_order` sees it: boundary vertices
and normal, with real coordinates. -/
structure FaceR where
  verts : List (Vec3 ℝ)
  normal : Vec3 ℝ

/-- Embedding of `mathutils.Vector.normalized`: scale by the reciprocal of
the Euclidean length.  (For the zero vector `mathutils` returns the zero
vector; here `1 / Real.sqrt 0 = 0` yields the same.) -/
noncomputable def vnormalize (v : Vec3 ℝ) : Vec3 ℝ :=
  Vec3.smul (1 / Real.sqrt (Vec3.lengthSq v)) v

/-- Embedding of `sort_vertices_grid_order`
(`polyfem/operators/heightmap.py`, lines 296-313): project each vertex
relative to the face's median center onto the normalized tangent (edge
from vertex 0 to vertex 1) and bitangent (`normal × tangent`), then stably
sort the `(projection, vertex)` pairs by the key `(v_, u)` and return the
vertices. -/
noncomputable def sort_vertices_grid_order (verts : List (Vec3 ℝ)) (face : FaceR) :
    List (Vec3 ℝ) :=
  let face_center := calc_center_median face.verts
  let tangent := vnormalize (Vec3.sub (face.verts.getD 1 default) (face.verts.getD 0 default))
  let bitangent := vnormalize (Vec3.cross face.normal tangent)
  let projections := verts.map (fun v =>
    (Vec3.dot (Vec3.sub v face_center) tangent,
     Vec3.dot (Vec3.sub v face_center) bitangent))
  let keyed := projections.zip verts
  (keyed.insertionSort (fun p q =>
      p.1.2 < q.1.2 ∨ (p.1.2 = q.1.2 ∧ p.1.1 ≤ q.1.1))).map Prod.snd

/-- Claim C10 (confirmed): `sort_vertices_grid_order` returns exactly the
input vertices, only reordered — a permutation, with nothing dropped or
duplicated. -/
theorem claim_C10_sort_is_permutation (verts : List (Vec3 ℝ)) (face : FaceR) :
    List.Perm (sort_vertices_grid_order verts face) verts := by
  unfold sort_vertices_grid_order
  simp only []
  refine List.Perm.trans (List.Perm.map Prod.snd (List.perm_insertionSort _ _)) ?_
  rw [List.map_snd_zip _ _ (le_of_eq (List.length_map _ _).symm)]

/-! ## Heightmap generation and normalization (real-valued)

From `polyfem/operators/heightmap.py` (`generate_heightmap`,
`normalize_heightmap`, lines 208-226; the registered
`physics_export/operators/heightmap.py` version, lines 156-179, computes
the same function with an explicit double loop).  `np.mean` and `np.std`
act on the flattened grid; `np.std` is the population standard deviation
`sqrt(mean((x - mean)²))`.
-/

/-- The values of a grid in row-major order (`numpy` flattening). -/
noncomputable def gvals (g : List (List ℝ)) : List ℝ := g.flatten

/-- Embedding of `np.mean` over a grid. -/
noncomputable def gmean (g : List (List ℝ)) : ℝ :=
  (gvals g).sum / (gvals g).length

/-- Embedding of `np.std` over a grid (population standard deviation). -/
noncomputable def gstd (g : List (List ℝ)) : ℝ :=
  Real.sqrt (((gvals g).map (fun t => (t - gmean g) ^ 2)).sum / (gvals g).length)

/-- Embedding of `normalize_heightmap` (`polyfem/operators/heightmap.py`,
lines 220-226): subtract the mean; when the standard deviation is `0`
return the mean-subtracted grid (all zeros), otherwise divide by three
standard deviations. -/
noncomputable def normalize_heightmap (g : List (List ℝ)) : List (List ℝ) :=
  if gstd g = 0 then
    g.map (List.map (fun t => t - gmean g))
  else
    g.map (List.map (fun t => (t - gmean g) / (3 * gstd g)))

/-- Embedding of `np.linspace(0, 1, n)`: `n` evenly spaced samples of
`[0, 1]` including both endpoints (`[0]` for `n = 1`, empty for
`n = 0`). -/
noncomputable def linspace (n : ℕ) : List ℝ :=
  (List.range n).map (fun i => if n ≤ 1 then 0 else (i : ℝ) / ((n : ℝ) - 1))

/-- The sampling loop of `generate_heightmap`:
`heightmap[i, j] = kernel(x_vals[i], y_vals[j])` (the `np.meshgrid`
indexing is `'ij'`, so `u` varies with the first index). -/
noncomputable def sample_grid (size_x size_y : ℕ) (f : ℝ → ℝ → ℝ) : List (List ℝ) :=
  (linspace size_x).map (fun u => (linspace size_y).map (fun v => f u v))

/-- Embedding of `generate_heightmap`: sample the kernel over `[0,1]²`,
normalize, multiply by the amplitude. -/
noncomputable def generate_heightmap (size_x size_y : ℕ) (f : ℝ → ℝ → ℝ)
    (amplitude : ℝ) : List (List ℝ) :=
  (normalize_heightmap (sample_grid size_x size_y f)).map
    (List.map (fun t => t * amplitude))

/-! ### Arithmetic of list sums -/

/-- Subtracting a constant from every entry subtracts `length * c` from the
sum. -/
lemma sum_map_sub_const (l : List ℝ) (c : ℝ) :
    (l.map (fun t => t - c)).sum = l.sum - l.length * c := by
  induction l with
  | nil => simp
  | cons a t ih =>
    simp only [List.map_cons, List.sum_cons, ih, List.length_cons]
    push_cast
    ring

/-- Dividing every mapped entry by a constant divides the sum. -/
lemma sum_map_div_const (l : List ℝ) (f : ℝ → ℝ) (c : ℝ) :
    (l.map (fun t => f t / c)).sum = (l.map f).sum / c := by
  induction l with
  | nil => simp
  | cons a t ih =>
    simp only [List.map_cons, List.sum_cons, ih, add_div]

/-- Centering a list at its mean gives sum zero. -/
lemma sum_center (l : List ℝ) :
    (l.map (fun t => t - l.sum / l.length)).sum = 0 := by
  rw [sum_map_sub_const]
  rcases eq_or_ne (l.length : ℝ) 0 with h | h
  · rw [h]
    have : l = [] := by
      cases l with
      | nil => rfl
      | cons a t =>
        exfalso
        norm_cast at h
    simp [this]
  · rw [mul_div_cancel₀ _ h, sub_self]

/-- A list of nonnegative reals with zero sum is all zeros. -/
lemma sum_nonneg_eq_zero (l : List ℝ) (h : ∀ x ∈ l, 0 ≤ x) (hs : l.sum = 0) :
    ∀ x ∈ l, x = 0 := by
  induction l with
  | nil => simp
  | cons a t ih =>
    have ha : 0 ≤ a := h a (List.mem_cons_self a t)
    have ht : 0 ≤ t.sum := List.sum_nonneg (fun x hx => h x (List.mem_cons_of_mem a hx))
    rw [List.sum_cons] at hs
    have ha0 : a = 0 := by linarith
    have hts : t.sum = 0 := by linarith
    intro x hx
    rcases List.mem_cons.mp hx with hx | hx
    · rw [hx, ha0]
    · exact ih (fun y hy => h y (List.mem_cons_of_mem a hy)) hts x hx

/-- The sum of a constant-zero map vanishes. -/
lemma sum_map_zero (l : List ℝ) : (l.map (fun _ => (0:ℝ))).sum = 0 := by
  induction l with
  | nil => simp
  | cons a t ih => simp [ih]

/-- Mapping a grid entrywise maps its flattened values entrywise. -/
lemma gvals_map (g : List (List ℝ)) (f : ℝ → ℝ) :
    gvals (g.map (List.map f)) = (gvals g).map f := by
  unfold gvals
  exact (List.map_flatten f g).symm

/-! ### Statistics of a normalized grid -/

/-- The mean-square deviation of a grid is nonnegative. -/
lemma msd_nonneg (g : List (List ℝ)) :
    0 ≤ ((gvals g).map (fun t => (t - gmean g) ^ 2)).sum / ((gvals g).length : ℝ) := by
  apply div_nonneg
  · apply List.sum_nonneg
    intro x hx
    obtain ⟨t, _, rfl⟩ := List.mem_map.mp hx
    positivity
  · positivity

/-- The square of the standard deviation is the mean-square deviation. -/
lemma gstd_sq (g : List (List ℝ)) :
    gstd g ^ 2
      = ((gvals g).map (fun t => (t - gmean g) ^ 2)).sum / ((gvals g).length : ℝ) := by
  exact Real.sq_sqrt (msd_nonneg g)

/-- The standard deviation vanishes exactly when every value equals the
mean. -/
lemma gstd_eq_zero_iff (g : List (List ℝ)) :
    gstd g = 0 ↔ ∀ x ∈ gvals g, x = gmean g := by
  constructor
  · intro h
    have hsq : ((gvals g).map (fun t => (t - gmean g) ^ 2)).sum
        / ((gvals g).length : ℝ) = 0 := by
      have := gstd_sq g
      rw [h] at this
      simpa using this.symm
    intro x hx
    rcases eq_or_ne ((gvals g).length : ℝ) 0 with hn | hn
    · exfalso
      have : gvals g = [] := by
        cases hv : gvals g with
        | nil => rfl
        | cons a t =>
          exfalso
          rw [hv] at hn
          norm_cast at hn
      rw [this] at hx
      exact List.not_mem_nil x hx
    · have hsum : ((gvals g).map (fun t => (t - gmean g) ^ 2)).sum = 0 := by
        rcases div_eq_zero_iff.mp hsq with h0 | h0
        · exact h0
        · exact absurd h0 hn
      have hz := sum_nonneg_eq_zero _ (by
        intro y hy
        obtain ⟨t, _, rfl⟩ := List.mem_map.mp hy
        positivity) hsum ((x - gmean g) ^ 2) (List.mem_map_of_mem _ hx)
      have : x - gmean g = 0 := by
        exact pow_eq_zero_iff (by norm_num) |>.mp hz
      linarith
  · intro h
    have hmap : (gvals g).map (fun t => (t - gmean g) ^ 2)
        = (gvals g).map (fun _ => 0) := by
      apply List.map_congr_left
      intro t ht
      rw [h t ht]
      ring
    unfold gstd
    rw [hmap]
    have : ((gvals g).map (fun _ => (0:ℝ))).sum = 0 := sum_map_zero (gvals g)
    rw [this, zero_div, Real.sqrt_zero]

/-- The mean of an entrywise-zero grid is zero. -/
lemma gmean_zero_grid (g : List (List ℝ)) :
    gmean (g.map (List.map (fun _ => (0:ℝ)))) = 0 := by
  unfold gmean
  rw [gvals_map, sum_map_zero, zero_div]

/-- After normalization with a nonzero standard deviation, the mean is
exactly zero. -/
lemma gmean_normalize_ne (g : List (List ℝ)) (h : gstd g ≠ 0) :
    gmean (normalize_heightmap g) = 0 := by
  have hvals : gvals (normalize_heightmap g)
      = (gvals g).map (fun t => (t - gmean g) / (3 * gstd g)) := by
    simp only [normalize_heightmap, if_neg h, gvals_map]
  unfold gmean
  rw [hvals, List.length_map,
    sum_map_div_const (gvals g) (fun t => t - gmean g) (3 * gstd g)]
  have hc : ((gvals g).map (fun t => t - gmean g)).sum = 0 := by
    have hrfl : gmean g = (gvals g).sum / ((gvals g).length : ℝ) := rfl
    rw [hrfl]
    exact sum_center (gvals g)
  rw [hc, zero_div, zero_div]

/-- After normalization with a nonzero standard deviation, the standard
deviation is exactly `1/3`. -/
lemma gstd_normalize_ne (g : List (List ℝ)) (h : gstd g ≠ 0) :
    gstd (normalize_heightmap g) = 1 / 3 := by
  have hμ := gmean_normalize_ne g h
  have hne : gvals g ≠ [] := by
    intro he
    apply h
    unfold gstd
    rw [he]
    simp
  have hn : ((gvals g).length : ℝ) ≠ 0 := by
    intro hn0
    apply hne
    norm_cast at hn0
    exact List.length_eq_zero.mp hn0
  have hvals : gvals (normalize_heightmap g)
      = (gvals g).map (fun t => (t - gmean g) / (3 * gstd g)) := by
    simp only [normalize_heightmap, if_neg h, gvals_map]
  unfold gstd
  rw [hμ]
  simp only [sub_zero]
  rw [hvals, List.map_map, List.length_map]
  have hcomp : ((fun t : ℝ => t ^ 2) ∘ fun t : ℝ => (t - gmean g) / (3 * gstd g))
      = fun t : ℝ => (t - gmean g) ^ 2 / (3 * gstd g) ^ 2 := by
    funext t
    simp [Function.comp, div_pow]
  rw [hcomp, sum_map_div_const (gvals g) (fun t => (t - gmean g) ^ 2) ((3 * gstd g) ^ 2)]
  have hS : ((gvals g).map (fun t => (t - gmean g) ^ 2)).sum
      = gstd g ^ 2 * ((gvals g).length : ℝ) := by
    rw [gstd_sq]
    field_simp
  rw [hS]
  have harg : gstd g ^ 2 * ((gvals g).length : ℝ) / (3 * gstd g) ^ 2
      / ((gvals g).length : ℝ) = 1 / 9 := by
    field_simp
    ring
  rw [harg, show (1 / 9 : ℝ) = (1 / 3) ^ 2 by norm_num, Real.sqrt_sq (by norm_num)]

/-- A grid with zero standard deviation normalizes to the all-zero grid of
the same shape. -/
lemma normalize_of_gstd_eq_zero (g : List (List ℝ)) (h : gstd g = 0) :
    normalize_heightmap g = g.map (List.map (fun _ => 0)) := by
  unfold normalize_heightmap
  rw [if_pos h]
  apply List.map_congr_left
  intro row hrow
  apply List.map_congr_left
  intro t ht
  have hm := (gstd_eq_zero_iff g).mp h t (by
    unfold gvals
    exact List.mem_flatten.mpr ⟨row, hrow, ht⟩)
  rw [hm, sub_self]

/-! ## Claim C1: heightmap normalization -/

/-- Claim C1 (confirmed): normalization subtracts the grid mean and divides
by three standard deviations; over exact arithmetic a non-constant grid
(nonzero standard deviation) normalizes to mean exactly `0` and standard
deviation exactly `1/3`, and a constant grid (standard deviation exactly
`0`) normalizes to the all-zero grid with no division by zero. -/
theorem claim_C1_normalization (g : List (List ℝ)) :
    (gstd g ≠ 0 →
      gmean (normalize_heightmap g) = 0 ∧ gstd (normalize_heightmap g) = 1 / 3)
    ∧ (gstd g = 0 → normalize_heightmap g = g.map (List.map (fun _ => 0))) :=
  ⟨fun h => ⟨gmean_normalize_ne g h, gstd_normalize_ne g h⟩,
   fun h => normalize_of_gstd_eq_zero g h⟩

/-- Witness for C1 on the non-constant grid `[[0, 1]]` and the constant
grid `[[2, 2]]`. -/
theorem claim_C1_normalization_witness :
    gstd [[(0:ℝ), 1]] ≠ 0
    ∧ gmean (normalize_heightmap [[(0:ℝ), 1]]) = 0
    ∧ gstd (normalize_heightmap [[(0:ℝ), 1]]) = 1 / 3
    ∧ gstd [[(2:ℝ), 2]] = 0
    ∧ normalize_heightmap [[(2:ℝ), 2]] = [[0, 0]] := by
  have hσ : gstd [[(0:ℝ), 1]] = 1 / 2 := by
    unfold gstd gmean gvals
    norm_num
    rw [show (4 : ℝ) = 2 ^ 2 by norm_num, Real.sqrt_sq (by norm_num)]
    norm_num
  have hσne : gstd [[(0:ℝ), 1]] ≠ 0 := by
    rw [hσ]
    norm_num
  have hc : gstd [[(2:ℝ), 2]] = 0 := by
    unfold gstd gmean gvals
    norm_num
  refine ⟨hσne, ((claim_C1_normalization [[(0:ℝ), 1]]).1 hσne).1,
    ((claim_C1_normalization [[(0:ℝ), 1]]).1 hσne).2, hc, ?_⟩
  have hz := (claim_C1_normalization [[(2:ℝ), 2]]).2 hc
  rw [hz]
  simp

/-! ## Claim C9: normalization is idempotent -/

/-- Claim C9 (confirmed): over exact arithmetic, normalizing twice equals
normalizing once — a non-constant grid reaches mean `0` and standard
deviation `1/3` after one pass, so the second pass divides by `3 · (1/3) =
1` and subtracts `0`; a constant grid reaches the all-zero grid, a fixed
point. -/
theorem claim_C9_normalize_idempotent (g : List (List ℝ)) :
    normalize_heightmap (normalize_heightmap g) = normalize_heightmap g := by
  by_cases h : gstd g = 0
  · rw [normalize_of_gstd_eq_zero g h]
    have hz : gstd (g.map (List.map (fun _ => (0:ℝ)))) = 0 := by
      rw [gstd_eq_zero_iff]
      intro x hx
      rw [gvals_map] at hx
      obtain ⟨t, _, rfl⟩ := List.mem_map.mp hx
      rw [gmean_zero_grid]
    rw [normalize_of_gstd_eq_zero _ hz, List.map_map]
    apply List.map_congr_left
    intro row _
    simp [Function.comp, List.map_map]
  · have h0 := gmean_normalize_ne g h
    have h3 := gstd_normalize_ne g h
    have h3' : gstd (normalize_heightmap g) ≠ 0 := by
      rw [h3]
      norm_num
    conv_lhs => rw [normalize_heightmap]
    rw [if_neg h3', h0, h3]
    have hfun : (fun t : ℝ => (t - 0) / (3 * (1 / 3))) = fun t : ℝ => t := by
      funext t
      norm_num
    rw [hfun]
    simp [List.map_id']

/-! ## Claim C7: the 4x4 sine-kernel scenario -/

/-- Ten is not a zero of the sine (ten is not an integer multiple of π,
since π is irrational). -/
lemma sin_ten_ne_zero : Real.sin 10 ≠ 0 := by
  intro h
  rw [Real.sin_eq_zero_iff] at h
  obtain ⟨n, hn⟩ := h
  have hn0 : n ≠ 0 := by
    rintro rfl
    norm_num at hn
  have hc : (n:ℝ) ≠ 0 := Int.cast_ne_zero.mpr hn0
  have hπ : Real.pi = 10 / (n : ℝ) := by
    rw [eq_div_iff hc, mul_comm]
    exact hn
  exact irrational_pi ⟨(10 : ℚ) / (n : ℚ), by push_cast; rw [hπ]⟩

/-- The raw 4x4 sine sample: `u` varies with the first index, so each row
is constant and row `i` carries `sin(10 * i/3)`. -/
lemma sample_sine_eq : sample_grid 4 4 sine_wave
    = [[0, 0, 0, 0],
       [Real.sin (10 / 3), Real.sin (10 / 3), Real.sin (10 / 3), Real.sin (10 / 3)],
       [Real.sin (20 / 3), Real.sin (20 / 3), Real.sin (20 / 3), Real.sin (20 / 3)],
       [Real.sin 10, Real.sin 10, Real.sin 10, Real.sin 10]] := by
  unfold sample_grid linspace sine_wave
  norm_num [List.range_succ]

/-- The 4x4 sine sample is not constant: its standard deviation is
nonzero. -/
lemma gstd_sample_sine_ne : gstd (sample_grid 4 4 sine_wave) ≠ 0 := by
  rw [sample_sine_eq]
  intro h0
  have hall := (gstd_eq_zero_iff _).mp h0
  have h0m := hall 0 (by unfold gvals; simp)
  have h3m := hall (Real.sin 10) (by unfold gvals; simp)
  exact sin_ten_ne_zero (h3m.trans h0m.symm)

/-- Claim C7 (corrected, amended): in the 4x4 sine-kernel heightmap with
amplitude `1`, each row is constant (the kernel ignores `v`, and `u`
varies with the first index), so it is columns 0 and 3 that are
element-wise equal; rows 0 and 3 differ (see the counterexample). -/
theorem claim_C7_sine_scenario :
    (generate_heightmap 4 4 sine_wave 1).map (fun r => r.getD 0 0)
      = (generate_heightmap 4 4 sine_wave 1).map (fun r => r.getD 3 0) := by
  unfold generate_heightmap
  simp only [normalize_heightmap, if_neg gstd_sample_sine_ne]
  rw [sample_sine_eq]
  simp only [List.map_cons, List.map_nil, List.getD_cons_zero, List.getD_cons_succ]

/-- Counterexample for C7 as stated: rows 0 and 3 of the 4x4 sine
heightmap are not element-wise equal — row 0 holds the normalization of
`sin 0 = 0` and row 3 the normalization of `sin 10 ≠ 0`. -/
theorem claim_C7_counterexample :
    (generate_heightmap 4 4 sine_wave 1).getD 0 []
      ≠ (generate_heightmap 4 4 sine_wave 1).getD 3 [] := by
  have hσ := gstd_sample_sine_ne
  have hσ' := hσ
  rw [sample_sine_eq] at hσ'
  intro heq
  unfold generate_heightmap at heq
  simp only [normalize_heightmap, if_neg hσ] at heq
  rw [sample_sine_eq] at heq
  simp only [List.map_cons, List.map_nil, List.getD_cons_zero, List.getD_cons_succ,
    List.cons.injEq, and_true] at heq
  obtain ⟨h1, -⟩ := heq
  rw [mul_one, mul_one] at h1
  have h3σ : 3 * gstd
      [[(0:ℝ), 0, 0, 0],
       [Real.sin (10 / 3), Real.sin (10 / 3), Real.sin (10 / 3), Real.sin (10 / 3)],
       [Real.sin (20 / 3), Real.sin (20 / 3), Real.sin (20 / 3), Real.sin (20 / 3)],
       [Real.sin 10, Real.sin 10, Real.sin 10, Real.sin 10]] ≠ 0 :=
    mul_ne_zero (by norm_num) hσ'
  have h01 := (div_left_inj' h3σ).mp h1
  have hz : (0:ℝ) = Real.sin 10 := by linarith
  exact sin_ten_ne_zero hz.symm

end HeightmapCore
